import Mathlib

/-!
# Deployment controller: event-to-work-item pipeline

A shallow embedding of `src/main.go` (the `Controller` type with `NewController`,
`runWorker`, `processNextItem`, `syncDeployment`, `enqueueDeployment` and `handleErr`).

The controller's own functions are translated line by line.  The client-go
collaborators they call (the rate-limiting work queue, the informer's indexer,
`cache.MetaNamespaceKeyFunc`, `cache.ResourceEventHandlerFuncs`) are not part of the
repository: they appear as parameters of the embedding (`RateLimitingInterface`,
the fields of `Controller`), and a small executable reference model of each is given
so that every statement can be evaluated on concrete inputs.

Every function returns, next to its result and the new queue state, the list of
observable actions it performed, in program order.  Statements such as "calls
`Forget(key)` exactly once and nothing else" are statements about that list.
-/

namespace DeploymentController

/-! ## Values -/

/-- A non-nil Go `error` value.  A Go variable of type `error` is an `Option GoError`,
with `none` for `nil`. -/
structure GoError where
  msg : String
  deriving DecidableEq

/-- The fields of `appsv1.Deployment` that the program or its collaborators read. -/
structure Deployment where
  Namespace : String
  Name : String
  deriving DecidableEq

/-- A Go `interface{}` value, by dynamic type: the nil interface, a `string`,
a `*appsv1.Deployment` (a pointer, possibly nil), an `error`, or a value of some other
dynamic type. -/
inductive Any where
  | nil
  | str (s : String)
  | deployment (p : Option Deployment)
  | error (e : GoError)
  | other (tag : Nat)
  deriving DecidableEq

/-- An observable action, recorded in program order. -/
inductive Event where
  | queueGet (item : Any) (shutdown : Bool)
  | queueAdd (item : Any)
  | queueAddRateLimited (item : Any)
  | queueForget (item : Any)
  | queueNumRequeues (item : Any)
  | queueDone (item : Any)
  | getByKey (key : String)
  | metaNamespaceKeyFunc (obj : Any)
  | klogErrorf (format : String) (args : List Any)
  | klogInfof (format : String) (args : List Any)
  | fmtPrintf (format : String) (args : List Any)
  | enterSyncDeployment (key : String)
  | enterHandleErr (err : Option GoError) (key : Any)
  | enterEnqueueDeployment (obj : Any)
  deriving DecidableEq

/-- The run-time panics of the program: a failed type assertion on the key or on the
mirrored object, and the dereference of a nil `*appsv1.Deployment` (in `syncDeployment`
when it reads `deployment.Name`, in key derivation when it reads the object's metadata). -/
inductive Panic where
  | keyNotString
  | objNotDeployment
  | nilDeployment
  deriving DecidableEq

/-- How a call ends: it returns a value, it panics, or it never returns because
`queue.Get` waits on an empty queue. -/
inductive Outcome (α : Type) where
  | ret (val : α)
  | panic (p : Panic)
  | blocked
  deriving DecidableEq

/-! ## Collaborators (client-go), taken as parameters -/

/-- The operations of `workqueue.RateLimitingInterface` on a queue state `Q`.
`NewRateLimitingQueue` is the state of a freshly created queue; `Get` is `none` when the
call would wait for an item; `tick` is the queue's own background step (a delayed add
becoming due); `keys` lists every item the queue holds in any of its internal sets. -/
structure RateLimitingInterface (Q : Type) where
  NewRateLimitingQueue : Q
  Add : Q → Any → Q
  Get : Q → Option (Any × Bool × Q)
  Done : Q → Any → Q
  ShutDown : Q → Q
  AddRateLimited : Q → Any → Q
  Forget : Q → Any → Q
  NumRequeues : Q → Any → Int
  tick : Q → Q
  keys : Q → List Any

/-- The `Controller` struct: its queue, its informer's indexer lookup
(`c.informer.GetIndexer().GetByKey`), and the key function of package `cache` that
`enqueueDeployment` calls.  The key function either returns its pair `(string, error)` or
panics: it reads the metadata of the object it is given and so dereferences a nil pointer.
The `clientset` field is never read by the functions below. -/
structure Controller (Q : Type) where
  queue : RateLimitingInterface Q
  GetByKey : String → Any × Bool × Option GoError
  MetaNamespaceKeyFunc : Any → Outcome (String × Option GoError)

/-- The handler triple `cache.ResourceEventHandlerFuncs`; an absent field is a nil func. -/
structure ResourceEventHandlerFuncs (Q : Type) where
  AddFunc : Option (Any → Q → Outcome Unit × Q × List Event)
  UpdateFunc : Option (Any → Any → Q → Outcome Unit × Q × List Event)
  DeleteFunc : Option (Any → Q → Outcome Unit × Q × List Event)

/-- A notification the informer delivers to its handlers. -/
inductive Notification where
  | Added (obj : Any)
  | Modified (old new : Any)
  | Deleted (obj : Any)
  deriving DecidableEq

/-- The method `OnAdd` of `ResourceEventHandlerFuncs`: calls `AddFunc` if it is not nil. -/
def ResourceEventHandlerFuncs.OnAdd {Q : Type} (h : ResourceEventHandlerFuncs Q)
    (obj : Any) (q : Q) : Outcome Unit × Q × List Event :=
  match h.AddFunc with
  | some f => f obj q
  | none => (Outcome.ret (), q, [])

/-- The method `OnUpdate`: calls `UpdateFunc` if it is not nil. -/
def ResourceEventHandlerFuncs.OnUpdate {Q : Type} (h : ResourceEventHandlerFuncs Q)
    (old new : Any) (q : Q) : Outcome Unit × Q × List Event :=
  match h.UpdateFunc with
  | some f => f old new q
  | none => (Outcome.ret (), q, [])

/-- The method `OnDelete`: calls `DeleteFunc` if it is not nil. -/
def ResourceEventHandlerFuncs.OnDelete {Q : Type} (h : ResourceEventHandlerFuncs Q)
    (obj : Any) (q : Q) : Outcome Unit × Q × List Event :=
  match h.DeleteFunc with
  | some f => f obj q
  | none => (Outcome.ret (), q, [])

/-- The informer hands a notification to the handler method of its kind. -/
def ResourceEventHandlerFuncs.deliver {Q : Type} (h : ResourceEventHandlerFuncs Q)
    (n : Notification) (q : Q) : Outcome Unit × Q × List Event :=
  match n with
  | Notification.Added obj => h.OnAdd obj q
  | Notification.Modified old new => h.OnUpdate old new q
  | Notification.Deleted obj => h.OnDelete obj q

/-! ## The controller (src/main.go) -/

/-- Source: `func (c *Controller) enqueueDeployment(obj interface{})`, lines 101-108.
The function has no `recover`: when the call of line 102 does not return, neither does
`enqueueDeployment`, and nothing after line 102 runs. -/
def enqueueDeployment {Q : Type} (c : Controller Q) (obj : Any) (q : Q) :
    Outcome Unit × Q × List Event :=
  match c.MetaNamespaceKeyFunc obj with
  | Outcome.ret (_, some err) =>
    (Outcome.ret (), q,
      [Event.enterEnqueueDeployment obj, Event.metaNamespaceKeyFunc obj,
       Event.klogErrorf "Failed to get key for object: %v" [Any.error err]])
  | Outcome.ret (key, none) =>
    (Outcome.ret (), c.queue.Add q (Any.str key),
      [Event.enterEnqueueDeployment obj, Event.metaNamespaceKeyFunc obj,
       Event.queueAdd (Any.str key)])
  | Outcome.panic p =>
    (Outcome.panic p, q, [Event.enterEnqueueDeployment obj, Event.metaNamespaceKeyFunc obj])
  | Outcome.blocked =>
    (Outcome.blocked, q, [Event.enterEnqueueDeployment obj, Event.metaNamespaceKeyFunc obj])

/-- Source: `func (c *Controller) handleErr(err error, key interface{})`, lines 110-124. -/
def handleErr {Q : Type} (c : Controller Q) (err : Option GoError) (key : Any) (q : Q) :
    Q × List Event :=
  match err with
  | none =>
    (c.queue.Forget q key, [Event.enterHandleErr none key, Event.queueForget key])
  | some e =>
    if c.queue.NumRequeues q key < 5 then
      (c.queue.AddRateLimited q key,
        [Event.enterHandleErr (some e) key, Event.queueNumRequeues key,
         Event.klogInfof "Error syncing Deployment %v: %v" [key, Any.error e],
         Event.queueAddRateLimited key])
    else
      (c.queue.Forget q key,
        [Event.enterHandleErr (some e) key, Event.queueNumRequeues key,
         Event.queueForget key,
         Event.klogInfof "Dropping Deployment %q out of the queue: %v" [key, Any.error e]])

/-- Source: `func (c *Controller) syncDeployment(key string) error`, lines 85-99.  The function
does not touch the queue. -/
def syncDeployment {Q : Type} (c : Controller Q) (key : String) :
    Outcome (Option GoError) × List Event :=
  match c.GetByKey key with
  | (_, _, some err) =>
    (Outcome.ret (some err), [Event.enterSyncDeployment key, Event.getByKey key])
  | (obj, found, none) =>
    if !found then
      (Outcome.ret none, [Event.enterSyncDeployment key, Event.getByKey key])
    else
      match obj with
      | Any.deployment (some d) =>
        (Outcome.ret none,
          [Event.enterSyncDeployment key, Event.getByKey key,
           Event.fmtPrintf "Syncing Deployment %s\n" [Any.str d.Name]])
      | Any.deployment none =>
        (Outcome.panic Panic.nilDeployment,
          [Event.enterSyncDeployment key, Event.getByKey key])
      | _ =>
        (Outcome.panic Panic.objNotDeployment,
          [Event.enterSyncDeployment key, Event.getByKey key])

/-- Source: `func (c *Controller) processNextItem() bool`, lines 72-83.  The deferred
`c.queue.Done(key)` runs when the function leaves, also when it leaves by a panic. -/
def processNextItem {Q : Type} (c : Controller Q) (q : Q) : Outcome Bool × Q × List Event :=
  match c.queue.Get q with
  | none => (Outcome.blocked, q, [])
  | some (key, quit, q1) =>
    if quit then
      (Outcome.ret false, q1, [Event.queueGet key quit])
    else
      match key with
      | Any.str s =>
        match syncDeployment c s with
        | (Outcome.ret err, ev1) =>
          let (q2, ev2) := handleErr c err key q1
          (Outcome.ret true, c.queue.Done q2 key,
            [Event.queueGet key quit] ++ ev1 ++ ev2 ++ [Event.queueDone key])
        | (Outcome.panic p, ev1) =>
          (Outcome.panic p, c.queue.Done q1 key,
            [Event.queueGet key quit] ++ ev1 ++ [Event.queueDone key])
        | (Outcome.blocked, ev1) =>
          (Outcome.blocked, q1, [Event.queueGet key quit] ++ ev1)
      | _ =>
        (Outcome.panic Panic.keyNotString, c.queue.Done q1 key,
          [Event.queueGet key quit, Event.queueDone key])

/-- Source: `func (c *Controller) runWorker()`, lines 67-70: `for c.processNextItem() {}`.
The first argument bounds the number of iterations; `none` means the bound was reached
with the loop still running. -/
def runWorker {Q : Type} (c : Controller Q) : Nat → Q → Option (Outcome Unit × Q × List Event)
  | 0, _ => none
  | n + 1, q =>
    match processNextItem c q with
    | (Outcome.ret true, q1, ev1) =>
      match runWorker c n q1 with
      | some (r, q2, ev2) => some (r, q2, ev1 ++ ev2)
      | none => none
    | (Outcome.ret false, q1, ev1) => some (Outcome.ret (), q1, ev1)
    | (Outcome.panic p, q1, ev1) => some (Outcome.panic p, q1, ev1)
    | (Outcome.blocked, q1, ev1) => some (Outcome.blocked, q1, ev1)

/-- The handlers that `NewController` registers on the informer, lines 40-43:
`AddFunc` and `UpdateFunc` are set, `DeleteFunc` is left nil. -/
def NewController_handlers {Q : Type} (c : Controller Q) : ResourceEventHandlerFuncs Q :=
  { AddFunc := some (enqueueDeployment c)
    UpdateFunc := some (fun _old new => enqueueDeployment c new)
    DeleteFunc := none }

/-- Source: `NewController`, lines 32-46: a fresh rate-limiting queue and the handlers registered
on the informer. -/
def NewController {Q : Type} (c : Controller Q) : Q × ResourceEventHandlerFuncs Q :=
  (c.queue.NewRateLimitingQueue, NewController_handlers c)

/-- Consecutive failed reconciles of one key: `handleErr` is called once per error of the
list, in order, each with a non-nil error.  Returns the final queue state and, per call,
the actions of that call. -/
def handleErrs {Q : Type} (c : Controller Q) (key : Any) :
    List GoError → Q → Q × List (List Event)
  | [], q => (q, [])
  | e :: es, q =>
    let (q1, ev) := handleErr c (some e) key q
    let (q2, evs) := handleErrs c key es q1
    (q2, ev :: evs)

/-! ## Contracts of the work queue -/

/-- The retry counter of a rate-limiting queue: `AddRateLimited(key)` raises
`NumRequeues(key)` by one and `Forget(key)` resets it to 0. -/
structure RetryLaws {Q : Type} (I : RateLimitingInterface Q) : Prop where
  numRequeues_AddRateLimited :
    ∀ q k, I.NumRequeues (I.AddRateLimited q k) k = I.NumRequeues q k + 1
  numRequeues_Forget : ∀ q k, I.NumRequeues (I.Forget q k) k = 0

/-- The queue holds no item that was not given to it: a fresh queue is empty, `Add` and
`AddRateLimited` bring in at most their argument, no other operation brings in anything,
and `Get` delivers only an item the queue holds. -/
structure QueueLaws {Q : Type} (I : RateLimitingInterface Q) : Prop where
  keys_new : ∀ x, x ∉ I.keys I.NewRateLimitingQueue
  keys_Add : ∀ q k x, x ∈ I.keys (I.Add q k) → x = k ∨ x ∈ I.keys q
  keys_AddRateLimited : ∀ q k x, x ∈ I.keys (I.AddRateLimited q k) → x = k ∨ x ∈ I.keys q
  keys_Forget : ∀ q k x, x ∈ I.keys (I.Forget q k) → x ∈ I.keys q
  keys_Done : ∀ q k x, x ∈ I.keys (I.Done q k) → x ∈ I.keys q
  keys_ShutDown : ∀ q x, x ∈ I.keys (I.ShutDown q) → x ∈ I.keys q
  keys_tick : ∀ q x, x ∈ I.keys (I.tick q) → x ∈ I.keys q
  Get_mem : ∀ q k q1, I.Get q = some (k, false, q1) → k ∈ I.keys q
  keys_Get : ∀ q k b q1 x, I.Get q = some (k, b, q1) → x ∈ I.keys q1 → x ∈ I.keys q

/-- The queue states the controller can bring about, starting from the queue that
`NewController` creates.  Whole steps: the informer delivers a notification to the
registered handlers; a worker runs `processNextItem` (against any content of the indexer);
the queue takes a background step or is shut down.  So that runs in which handlers and
workers interleave are covered as well, the three queue operations a worker performs
inside `processNextItem` are steps of their own: `Get`, then `handleErr` (reached only
after the assertion `key.(string)` succeeded, hence with a string key), then `Done`. -/
inductive Reachable {Q : Type} (c : Controller Q) : Q → Prop where
  | init : Reachable c (NewController c).1
  | notify (q : Q) (n : Notification) :
      Reachable c q → Reachable c ((NewController c).2.deliver n q).2.1
  | work (q : Q) (ix : String → Any × Bool × Option GoError) :
      Reachable c q → Reachable c (processNextItem { c with GetByKey := ix } q).2.1
  | tick (q : Q) : Reachable c q → Reachable c (c.queue.tick q)
  | shutDown (q : Q) : Reachable c q → Reachable c (c.queue.ShutDown q)
  | get (q q1 : Q) (key : Any) (quit : Bool) :
      Reachable c q → c.queue.Get q = some (key, quit, q1) → Reachable c q1
  | handle (q : Q) (err : Option GoError) (s : String) :
      Reachable c q → Reachable c (handleErr c err (Any.str s) q).1
  | done (q : Q) (key : Any) : Reachable c q → Reachable c (c.queue.Done q key)

/-! ## Reference models of the collaborators -/

/-- Modelled from the spec: the Work Queue of section 4.3 (client-go's `workqueue`
package, which is not part of the repository).  `queue` is the pending order, `dirty` the
items that need processing, `processing` the items in flight, `waiting` the delayed adds
not yet due, `failures` one entry per rate-limited re-add since the last `Forget`. -/
structure WorkQueue where
  queue : List Any
  dirty : List Any
  processing : List Any
  waiting : List Any
  failures : List Any
  shuttingDown : Bool
  deriving DecidableEq

namespace WorkQueue

/-- Modelled from the spec: a freshly created queue holds nothing. -/
def empty : WorkQueue :=
  { queue := [], dirty := [], processing := [], waiting := [], failures := [],
    shuttingDown := false }

/-- Modelled from the spec: `Add(key)` inserts the key if absent; if already pending it
is a no-op; if the key is in flight it is only marked dirty. -/
def Add (q : WorkQueue) (item : Any) : WorkQueue :=
  if q.shuttingDown then q
  else if item ∈ q.dirty then q
  else if item ∈ q.processing then { q with dirty := item :: q.dirty }
  else { q with dirty := item :: q.dirty, queue := q.queue ++ [item] }

/-- Modelled from the spec: `Get()` waits until a key is available or the queue is shut
down, and marks the key in flight. -/
def Get (q : WorkQueue) : Option (Any × Bool × WorkQueue) :=
  match q.queue with
  | [] => if q.shuttingDown then some (Any.nil, true, q) else none
  | item :: rest =>
    some (item, false,
      { q with queue := rest
               processing := item :: q.processing
               dirty := q.dirty.filter (fun x => x ≠ item) })

/-- Modelled from the spec: `Done(key)` releases the in-flight mark; a key marked dirty
while in flight is re-added at once. -/
def Done (q : WorkQueue) (item : Any) : WorkQueue :=
  if item ∈ q.dirty then
    { q with processing := q.processing.filter (fun x => x ≠ item)
             queue := q.queue ++ [item] }
  else
    { q with processing := q.processing.filter (fun x => x ≠ item) }

/-- Modelled from the spec: `ShutDown()`. -/
def ShutDown (q : WorkQueue) : WorkQueue :=
  { q with shuttingDown := true }

/-- Modelled from the spec: `AddRateLimited(key)` counts one more re-add of the key and
schedules its insertion after a delay. -/
def AddRateLimited (q : WorkQueue) (item : Any) : WorkQueue :=
  if q.shuttingDown then { q with failures := item :: q.failures }
  else { q with failures := item :: q.failures, waiting := q.waiting ++ [item] }

/-- Modelled from the spec: `Forget(key)` clears the retry state of the key and does not
remove it from the pending set. -/
def Forget (q : WorkQueue) (item : Any) : WorkQueue :=
  { q with failures := q.failures.filter (fun x => x ≠ item) }

/-- Modelled from the spec: `NumRequeues(key)` is the count of rate-limited re-adds since
the last `Forget`. -/
def NumRequeues (q : WorkQueue) (item : Any) : Int :=
  (q.failures.count item : Nat)

/-- Modelled from the spec: the delay of the oldest waiting key elapses and the key is
added. -/
def tick (q : WorkQueue) : WorkQueue :=
  match q.waiting with
  | [] => q
  | item :: rest => Add { q with waiting := rest } item

/-- Every item held in one of the queue's sets. -/
def keys (q : WorkQueue) : List Any :=
  q.queue ++ q.dirty ++ q.processing ++ q.waiting

/-- The reference queue as a `RateLimitingInterface`. -/
def iface : RateLimitingInterface WorkQueue :=
  { NewRateLimitingQueue := empty
    Add := Add
    Get := Get
    Done := Done
    ShutDown := ShutDown
    AddRateLimited := AddRateLimited
    Forget := Forget
    NumRequeues := NumRequeues
    tick := tick
    keys := keys }

end WorkQueue

/-- Modelled from the spec: the Key of an item is a deterministic function of its
identity fields, namespace and name (client-go's `cache.MetaNamespaceKeyFunc`, which is
not part of the repository); an item without identity fields has no key.  A nil
`*appsv1.Deployment` has the dynamic type of an item, so its identity fields are read
through the nil pointer, which panics. -/
def refKeyFunc : Any → Outcome (String × Option GoError)
  | Any.deployment (some d) =>
    if d.Namespace.length > 0 then Outcome.ret (d.Namespace ++ "/" ++ d.Name, none)
    else Outcome.ret (d.Name, none)
  | Any.deployment none => Outcome.panic Panic.nilDeployment
  | _ => Outcome.ret ("", some { msg := "object has no meta" })

/-- The key of a mirrored deployment, as `refKeyFunc` derives it. -/
def refKey (d : Deployment) : String :=
  if d.Namespace.length > 0 then d.Namespace ++ "/" ++ d.Name else d.Name

/-- Modelled from the spec: the Local Mirror's `GetByKey`, over a list of the mirrored
deployments (client-go's indexer, which is not part of the repository). -/
def refGetByKey (store : List Deployment) (key : String) : Any × Bool × Option GoError :=
  match store.find? (fun d => refKey d == key) with
  | some d => (Any.deployment (some d), true, none)
  | none => (Any.nil, false, none)

/-- A controller over the reference queue, with a given mirror content. -/
def refController (store : List Deployment) : Controller WorkQueue :=
  { queue := WorkQueue.iface
    GetByKey := refGetByKey store
    MetaNamespaceKeyFunc := refKeyFunc }

/-- A controller over the reference queue whose mirror lookup fails with an error. -/
def failingController : Controller WorkQueue :=
  { queue := WorkQueue.iface
    GetByKey := fun _ => (Any.nil, false, some { msg := "lookup failed" })
    MetaNamespaceKeyFunc := refKeyFunc }

/-- The deployment `ns/a` used in the examples. -/
def deploymentA : Deployment := { Namespace := "ns", Name := "a" }

/-- The deployment `ns/b` used in the examples. -/
def deploymentB : Deployment := { Namespace := "ns", Name := "b" }

/-- The three calls that `processNextItem` makes after `Get`: entering `syncDeployment`,
entering `handleErr`, and `queue.Done`. -/
def Event.isWorkerCall : Event → Bool
  | Event.enterSyncDeployment _ => true
  | Event.enterHandleErr _ _ => true
  | Event.queueDone _ => true
  | _ => false

/-- What `handleErr` does when it requeues: it reads `NumRequeues`, logs, and calls
`AddRateLimited`. -/
def requeueEvents (key : Any) (e : GoError) : List Event :=
  [Event.enterHandleErr (some e) key, Event.queueNumRequeues key,
   Event.klogInfof "Error syncing Deployment %v: %v" [key, Any.error e],
   Event.queueAddRateLimited key]

/-- What `handleErr` does when it gives up: it reads `NumRequeues`, calls `Forget`, and
logs. -/
def dropEvents (key : Any) (e : GoError) : List Event :=
  [Event.enterHandleErr (some e) key, Event.queueNumRequeues key,
   Event.queueForget key,
   Event.klogInfof "Dropping Deployment %q out of the queue: %v" [key, Any.error e]]

/-- Every item of the list is a Go `string`. -/
def AllStrings (l : List Any) : Prop :=
  ∀ k ∈ l, ∃ s, k = Any.str s

/-- The error used in the examples. -/
def boom : GoError := { msg := "boom" }

/-- The key `"ns/a"` as an `interface{}` value. -/
def keyA : Any := Any.str "ns/a"

/-- The reference queue after an Added notification for `ns/a` reached the handlers that
`NewController` registers: `"ns/a"` is pending. -/
def pendingA : WorkQueue :=
  ((NewController (refController [])).2.deliver
    (Notification.Added (Any.deployment (some deploymentA))) WorkQueue.empty).2.1

/-- The reference queue after five consecutive failed reconciles of `"ns/a"`. -/
def retriedA : WorkQueue :=
  (handleErrs (refController []) keyA (List.replicate 5 boom) WorkQueue.empty).1

/-- The reference queue after `Get` delivered `"ns/a"` from `pendingA`: the key is in
flight. -/
def inflightA : WorkQueue :=
  { queue := [], dirty := [], processing := [Any.str "ns/a"], waiting := [], failures := [],
    shuttingDown := false }

/-! ## Properties of the reference queue -/

theorem WorkQueue.retryLaws : RetryLaws WorkQueue.iface := by
  constructor
  · intro q k
    by_cases h : q.shuttingDown <;>
      simp [WorkQueue.iface, WorkQueue.NumRequeues, WorkQueue.AddRateLimited, h]
  · intro q k
    simp [WorkQueue.iface, WorkQueue.NumRequeues, WorkQueue.Forget, List.count_eq_zero]


/-! ## handleErr -/

/-- C1: for every key and every non-nil reconcile error, when `NumRequeues(key) < 5` at
the time of the call `handleErr` re-adds the key with `AddRateLimited(key)` exactly once
and calls neither `Forget` nor `Add`; otherwise (`NumRequeues(key) >= 5`) it calls
`Forget(key)` once and re-adds nothing. -/
theorem handleErr_failure {Q : Type} (c : Controller Q) (e : GoError) (key : Any) (q : Q) :
    (c.queue.NumRequeues q key < 5 →
      (handleErr c (some e) key q).1 = c.queue.AddRateLimited q key ∧
      (handleErr c (some e) key q).2 =
        [Event.enterHandleErr (some e) key, Event.queueNumRequeues key,
         Event.klogInfof "Error syncing Deployment %v: %v" [key, Any.error e],
         Event.queueAddRateLimited key] ∧
      (handleErr c (some e) key q).2.count (Event.queueAddRateLimited key) = 1 ∧
      ∀ k, Event.queueForget k ∉ (handleErr c (some e) key q).2 ∧
           Event.queueAdd k ∉ (handleErr c (some e) key q).2) ∧
    (5 ≤ c.queue.NumRequeues q key →
      (handleErr c (some e) key q).1 = c.queue.Forget q key ∧
      (handleErr c (some e) key q).2 =
        [Event.enterHandleErr (some e) key, Event.queueNumRequeues key,
         Event.queueForget key,
         Event.klogInfof "Dropping Deployment %q out of the queue: %v"
           [key, Any.error e]] ∧
      (handleErr c (some e) key q).2.count (Event.queueForget key) = 1 ∧
      ∀ k, Event.queueAddRateLimited k ∉ (handleErr c (some e) key q).2 ∧
           Event.queueAdd k ∉ (handleErr c (some e) key q).2) := by
  constructor
  · intro h
    simp [handleErr, h]
  · intro h
    have h5 : ¬ c.queue.NumRequeues q key < 5 := not_lt.mpr h
    simp [handleErr, h5]

/-- C3: when the reconcile result is success (`err == nil`), `handleErr` calls
`Forget(key)` and nothing else, so the key is re-added neither with `Add` nor with
`AddRateLimited`; on a queue whose `Forget` resets the retry counter, `NumRequeues(key)`
is 0 afterwards, whatever it was before. -/
theorem handleErr_success {Q : Type} (c : Controller Q) (key : Any) (q : Q)
    (hForget : ∀ q k, c.queue.NumRequeues (c.queue.Forget q k) k = 0) :
    (handleErr c none key q).1 = c.queue.Forget q key ∧
    (handleErr c none key q).2 = [Event.enterHandleErr none key, Event.queueForget key] ∧
    (∀ k, Event.queueAdd k ∉ (handleErr c none key q).2 ∧
          Event.queueAddRateLimited k ∉ (handleErr c none key q).2) ∧
    c.queue.NumRequeues (handleErr c none key q).1 key = 0 := by
  refine ⟨rfl, rfl, ?_, ?_⟩
  · intro k
    simp [handleErr]
  · simpa [handleErr] using hForget q key

/-! ## enqueueDeployment and the registered handlers -/

/-- C5, as amended: for every object `enqueueDeployment` never fails, and it panics only
when key derivation itself panics (it has no `recover`; the panic is passed on with the
queue unchanged and nothing added).  Whenever key derivation returns, `enqueueDeployment`
returns: when key derivation returns an error the event is dropped, the queue is left
unchanged and no queue operation is performed; when key derivation succeeds it calls
`queue.Add` exactly once, with exactly the derived key, and performs no other queue
operation. -/
theorem enqueueDeployment_spec {Q : Type} (c : Controller Q) (obj : Any) (q : Q) :
    (∀ key err, c.MetaNamespaceKeyFunc obj = Outcome.ret (key, some err) →
      enqueueDeployment c obj q =
        (Outcome.ret (), q,
          [Event.enterEnqueueDeployment obj, Event.metaNamespaceKeyFunc obj,
           Event.klogErrorf "Failed to get key for object: %v" [Any.error err]]) ∧
      ∀ k, Event.queueAdd k ∉ (enqueueDeployment c obj q).2.2 ∧
           Event.queueAddRateLimited k ∉ (enqueueDeployment c obj q).2.2) ∧
    (∀ key, c.MetaNamespaceKeyFunc obj = Outcome.ret (key, none) →
      enqueueDeployment c obj q =
        (Outcome.ret (), c.queue.Add q (Any.str key),
          [Event.enterEnqueueDeployment obj, Event.metaNamespaceKeyFunc obj,
           Event.queueAdd (Any.str key)]) ∧
      (enqueueDeployment c obj q).2.2.count (Event.queueAdd (Any.str key)) = 1 ∧
      ∀ k, Event.queueAdd k ∈ (enqueueDeployment c obj q).2.2 → k = Any.str key) ∧
    (∀ r, c.MetaNamespaceKeyFunc obj = Outcome.ret r →
      (enqueueDeployment c obj q).1 = Outcome.ret ()) ∧
    (∀ p, (enqueueDeployment c obj q).1 = Outcome.panic p ↔
      c.MetaNamespaceKeyFunc obj = Outcome.panic p) ∧
    (∀ p, c.MetaNamespaceKeyFunc obj = Outcome.panic p →
      enqueueDeployment c obj q =
        (Outcome.panic p, q,
          [Event.enterEnqueueDeployment obj, Event.metaNamespaceKeyFunc obj])) := by
  refine ⟨?_, ?_, ?_, ?_, ?_⟩
  · intro key err h
    simp [enqueueDeployment, h]
  · intro key h
    simp [enqueueDeployment, h]
  · rintro ⟨key, err⟩ h
    cases err <;> simp [enqueueDeployment, h]
  · intro p
    cases h : c.MetaNamespaceKeyFunc obj with
    | ret r =>
      obtain ⟨key, err⟩ := r
      cases err <;> simp [enqueueDeployment, h]
    | panic p2 => simp [enqueueDeployment, h]
    | blocked => simp [enqueueDeployment, h]
  · intro p h
    simp [enqueueDeployment, h]

/-- C7: for every update event `(old, new)`, also when `old` and `new` are identical, the
registered `UpdateFunc` enqueues the key of the new object: it calls `queue.Add` exactly
once, with the key derived from `new`, and with no other key; what it does equals what
`enqueueDeployment(new)` does and does not depend on `old`. -/
theorem updateFunc_enqueues_new {Q : Type} (c : Controller Q) (old new : Any) (q : Q) :
    (∀ key, c.MetaNamespaceKeyFunc new = Outcome.ret (key, none) →
      (NewController c).2.deliver (Notification.Modified old new) q =
        (Outcome.ret (), c.queue.Add q (Any.str key),
          [Event.enterEnqueueDeployment new, Event.metaNamespaceKeyFunc new,
           Event.queueAdd (Any.str key)]) ∧
      (NewController c).2.deliver (Notification.Modified new new) q =
        (Outcome.ret (), c.queue.Add q (Any.str key),
          [Event.enterEnqueueDeployment new, Event.metaNamespaceKeyFunc new,
           Event.queueAdd (Any.str key)]) ∧
      ((NewController c).2.deliver (Notification.Modified old new) q).2.2.count
        (Event.queueAdd (Any.str key)) = 1 ∧
      ∀ k, Event.queueAdd k ∈
          ((NewController c).2.deliver (Notification.Modified old new) q).2.2 →
        k = Any.str key) ∧
    (NewController c).2.deliver (Notification.Modified old new) q =
      enqueueDeployment c new q ∧
    (NewController c).2.deliver (Notification.Modified new new) q =
      enqueueDeployment c new q ∧
    ∀ old2, (NewController c).2.deliver (Notification.Modified old2 new) q =
      (NewController c).2.deliver (Notification.Modified old new) q := by
  refine ⟨?_, rfl, rfl, fun _ => rfl⟩
  intro key hkey
  have h : enqueueDeployment c new q =
      (Outcome.ret (), c.queue.Add q (Any.str key),
        [Event.enterEnqueueDeployment new, Event.metaNamespaceKeyFunc new,
         Event.queueAdd (Any.str key)]) := by
    simp [enqueueDeployment, hkey]
  have hd : (NewController c).2.deliver (Notification.Modified old new) q =
      enqueueDeployment c new q := rfl
  refine ⟨hd.trans h, h, ?_, ?_⟩
  · rw [hd, h]
    simp
  · intro k
    rw [hd, h]
    simp

/-! ## syncDeployment -/

/-- C6: for a key that is absent from the Local Mirror (`GetByKey` returns
`exists = false` and no error), `syncDeployment` returns nil, and `handleErr` called with
that result forgets the key and does not requeue it. -/
theorem syncDeployment_absent {Q : Type} (c : Controller Q) (key : String) (obj : Any)
    (q : Q) (habsent : c.GetByKey key = (obj, false, none)) :
    (syncDeployment c key).1 = Outcome.ret none ∧
    (syncDeployment c key).2 = [Event.enterSyncDeployment key, Event.getByKey key] ∧
    handleErr c none (Any.str key) q =
      (c.queue.Forget q (Any.str key),
        [Event.enterHandleErr none (Any.str key), Event.queueForget (Any.str key)]) ∧
    (∀ k, Event.queueAdd k ∉ (handleErr c none (Any.str key) q).2 ∧
          Event.queueAddRateLimited k ∉ (handleErr c none (Any.str key) q).2) ∧
    ∀ q0, c.queue.Get q0 = some (Any.str key, false, q) →
      processNextItem c q0 =
        (Outcome.ret true, c.queue.Done (c.queue.Forget q (Any.str key)) (Any.str key),
          [Event.queueGet (Any.str key) false, Event.enterSyncDeployment key,
           Event.getByKey key, Event.enterHandleErr none (Any.str key),
           Event.queueForget (Any.str key), Event.queueDone (Any.str key)]) := by
  have hs : syncDeployment c key =
      (Outcome.ret none, [Event.enterSyncDeployment key, Event.getByKey key]) := by
    simp [syncDeployment, habsent]
  refine ⟨by rw [hs], by rw [hs], rfl, ?_, ?_⟩
  · intro k
    simp [handleErr]
  · intro q0 hget
    simp [processNextItem, hget, hs, handleErr]


/-! ## Retry budget -/

theorem handleErrs_append {Q : Type} (c : Controller Q) (key : Any) (a b : List GoError)
    (q : Q) :
    handleErrs c key (a ++ b) q =
      ((handleErrs c key b (handleErrs c key a q).1).1,
        (handleErrs c key a q).2 ++ (handleErrs c key b (handleErrs c key a q).1).2) := by
  induction a generalizing q with
  | nil => simp [handleErrs]
  | cons e es ih => simp [handleErrs, ih]

theorem handleErrs_requeue {Q : Type} (c : Controller Q) (laws : RetryLaws c.queue)
    (key : Any) (errs : List GoError) (q : Q) (m : Nat)
    (hm : c.queue.NumRequeues q key = m) (hlen : m + errs.length ≤ 5) :
    (handleErrs c key errs q).2 = errs.map (requeueEvents key) ∧
    c.queue.NumRequeues (handleErrs c key errs q).1 key = ((m + errs.length : Nat) : Int) := by
  induction errs generalizing q m with
  | nil => simp [handleErrs, hm]
  | cons e es ih =>
    have hlt : c.queue.NumRequeues q key < 5 := by
      rw [hm]
      simp only [List.length_cons] at hlen
      omega
    have h1 : handleErr c (some e) key q =
        (c.queue.AddRateLimited q key, requeueEvents key e) := by
      simp [handleErr, hlt, requeueEvents]
    have hm1 : c.queue.NumRequeues (c.queue.AddRateLimited q key) key = ((m + 1 : Nat) : Int) := by
      rw [laws.numRequeues_AddRateLimited, hm]
      push_cast
      ring
    have hlen1 : (m + 1) + es.length ≤ 5 := by
      simp only [List.length_cons] at hlen
      omega
    have := ih (c.queue.AddRateLimited q key) (m + 1) hm1 hlen1
    simp only [handleErrs, h1, List.map_cons, List.length_cons]
    refine ⟨by rw [this.1], ?_⟩
    rw [this.2]
    congr 1
    omega

/-- C2, as amended: starting from a key whose retry state is clean (`NumRequeues(key) = 0`),
on a queue where each `AddRateLimited(key)` raises `NumRequeues(key)` by one and
`Forget(key)` resets it to 0, each of the first 5 consecutive failed reconciles handled by
`handleErr` requeues the key (`NumRequeues(key)` is 5 after the 5th); the 6th `handleErr`
call does not requeue the key but calls `Forget(key)`, and `NumRequeues(key)` is 0
immediately after it. -/
theorem sixth_failure_drops {Q : Type} (c : Controller Q) (laws : RetryLaws c.queue)
    (key : Any) (q : Q) (errs : List GoError) (e6 : GoError)
    (hclean : c.queue.NumRequeues q key = 0) (hlen : errs.length = 5) :
    (handleErrs c key errs q).2 = errs.map (requeueEvents key) ∧
    c.queue.NumRequeues (handleErrs c key errs q).1 key = 5 ∧
    (handleErrs c key (errs ++ [e6]) q).2 = errs.map (requeueEvents key) ++ [dropEvents key e6] ∧
    (∀ k, Event.queueAddRateLimited k ∉ dropEvents key e6 ∧
          Event.queueAdd k ∉ dropEvents key e6) ∧
    Event.queueForget key ∈ dropEvents key e6 ∧
    c.queue.NumRequeues (handleErrs c key (errs ++ [e6]) q).1 key = 0 := by
  have h5 := handleErrs_requeue c laws key errs q 0 (by simpa using hclean) (by omega)
  have hn : c.queue.NumRequeues (handleErrs c key errs q).1 key = 5 := by
    rw [h5.2, hlen]
    rfl
  have hnot : ¬ c.queue.NumRequeues (handleErrs c key errs q).1 key < 5 := by
    rw [hn]
    decide
  have h6 : handleErr c (some e6) key (handleErrs c key errs q).1 =
      (c.queue.Forget (handleErrs c key errs q).1 key, dropEvents key e6) := by
    simp [handleErr, hnot, dropEvents]
  refine ⟨h5.1, hn, ?_, ?_, ?_, ?_⟩
  · rw [handleErrs_append]
    simp [handleErrs, h6, h5.1]
  · intro k
    simp [dropEvents]
  · simp [dropEvents]
  · rw [handleErrs_append]
    simp [handleErrs, h6, laws.numRequeues_Forget]

/-- C4, as amended: for every Added and every Modified event on an item whose key can be
derived, the handlers that `NewController` registers invoke `enqueueDeployment`, which
calls `queue.Add` with the item's key; for a Deleted event no handler is registered, so
nothing runs and the queue is left unchanged. -/
theorem handlers_enqueue {Q : Type} (c : Controller Q) (obj old : Any) (key : String)
    (q : Q) (hkey : c.MetaNamespaceKeyFunc obj = Outcome.ret (key, none)) :
    (NewController c).2.deliver (Notification.Added obj) q =
      (Outcome.ret (), c.queue.Add q (Any.str key),
        [Event.enterEnqueueDeployment obj, Event.metaNamespaceKeyFunc obj,
         Event.queueAdd (Any.str key)]) ∧
    (NewController c).2.deliver (Notification.Modified old obj) q =
      (Outcome.ret (), c.queue.Add q (Any.str key),
        [Event.enterEnqueueDeployment obj, Event.metaNamespaceKeyFunc obj,
         Event.queueAdd (Any.str key)]) ∧
    (NewController c).2.deliver (Notification.Deleted obj) q = (Outcome.ret (), q, []) := by
  have h : enqueueDeployment c obj q =
      (Outcome.ret (), c.queue.Add q (Any.str key),
        [Event.enterEnqueueDeployment obj, Event.metaNamespaceKeyFunc obj,
         Event.queueAdd (Any.str key)]) := by
    simp [enqueueDeployment, hkey]
  exact ⟨h, h, rfl⟩


/-! ## processNextItem and runWorker -/

theorem processNextItem_shutdown {Q : Type} (c : Controller Q) (q q1 : Q) (key : Any)
    (hget : c.queue.Get q = some (key, true, q1)) :
    processNextItem c q = (Outcome.ret false, q1, [Event.queueGet key true]) := by
  simp [processNextItem, hget]

theorem processNextItem_delivered {Q : Type} (c : Controller Q) (q q1 : Q) (s : String)
    (err : Option GoError) (evs : List Event)
    (hget : c.queue.Get q = some (Any.str s, false, q1))
    (hsync : syncDeployment c s = (Outcome.ret err, evs)) :
    processNextItem c q =
      (Outcome.ret true, c.queue.Done (handleErr c err (Any.str s) q1).1 (Any.str s),
        [Event.queueGet (Any.str s) false] ++ evs ++ (handleErr c err (Any.str s) q1).2 ++
          [Event.queueDone (Any.str s)]) := by
  simp [processNextItem, hget, hsync]

theorem processNextItem_false_iff {Q : Type} (c : Controller Q) (q : Q) :
    (processNextItem c q).1 = Outcome.ret false ↔
      ∃ key q1, c.queue.Get q = some (key, true, q1) := by
  constructor
  · intro h
    cases hget : c.queue.Get q with
    | none => simp [processNextItem, hget] at h
    | some r =>
      obtain ⟨key, quit, q1⟩ := r
      cases quit with
      | true => exact ⟨key, q1, rfl⟩
      | false =>
        exfalso
        cases key with
        | str s =>
          rcases hs : syncDeployment c s with ⟨o, ev1⟩
          cases o <;> simp [processNextItem, hget, hs] at h
        | nil => simp [processNextItem, hget] at h
        | deployment p => simp [processNextItem, hget] at h
        | error e => simp [processNextItem, hget] at h
        | other t => simp [processNextItem, hget] at h
  · rintro ⟨key, q1, hget⟩
    rw [processNextItem_shutdown c q q1 key hget]

theorem syncDeployment_events_no_call {Q : Type} (c : Controller Q) (s : String) :
    (syncDeployment c s).2.filter Event.isWorkerCall = [Event.enterSyncDeployment s] := by
  unfold syncDeployment
  split
  · rfl
  · split
    · rfl
    · split <;> rfl

theorem handleErr_events_no_call {Q : Type} (c : Controller Q) (err : Option GoError)
    (key : Any) (q : Q) :
    (handleErr c err key q).2.filter Event.isWorkerCall = [Event.enterHandleErr err key] := by
  unfold handleErr
  split
  · rfl
  · split <;> rfl

theorem runWorker_exit {Q : Type} (c : Controller Q) (n : Nat) (q q2 : Q)
    (evs : List Event) (h : runWorker c n q = some (Outcome.ret (), q2, evs)) :
    ∃ key, evs.getLast? = some (Event.queueGet key true) := by
  induction n generalizing q q2 evs with
  | zero => simp [runWorker] at h
  | succ n ih =>
    rcases hp : processNextItem c q with ⟨o, q1, ev1⟩
    cases o with
    | ret b =>
      cases b with
      | true =>
        cases hr : runWorker c n q1 with
        | none => simp [runWorker, hp, hr] at h
        | some r =>
          obtain ⟨r1, q3, ev2⟩ := r
          simp only [runWorker, hp, hr, Option.some.injEq, Prod.mk.injEq] at h
          obtain ⟨h1, h2, h3⟩ := h
          subst h1 h2 h3
          obtain ⟨key, hk⟩ := ih q1 q3 ev2 hr
          refine ⟨key, ?_⟩
          have hne : ev2 ≠ [] := by
            intro h0
            simp [h0] at hk
          rw [List.getLast?_append_of_ne_nil _ hne]
          exact hk
      | false =>
        have hf : (processNextItem c q).1 = Outcome.ret false := by rw [hp]
        obtain ⟨key, q1', hget⟩ := (processNextItem_false_iff c q).mp hf
        rw [processNextItem_shutdown c q q1' key hget] at hp
        simp only [Prod.mk.injEq] at hp
        obtain ⟨-, h2, h3⟩ := hp
        subst h2 h3
        simp only [runWorker, processNextItem_shutdown c q q1' key hget, Option.some.injEq,
          Prod.mk.injEq, true_and] at h
        obtain ⟨-, h3⟩ := h
        subst h3
        exact ⟨key, rfl⟩
    | panic p => simp [runWorker, hp] at h
    | blocked => simp [runWorker, hp] at h

theorem syncDeployment_returns {Q : Type} (c : Controller Q) (s : String)
    (hmirror : ∀ obj, c.GetByKey s = (obj, true, none) → ∃ d, obj = Any.deployment (some d)) :
    ∃ err evs, syncDeployment c s = (Outcome.ret err, evs) := by
  unfold syncDeployment
  split
  · exact ⟨_, _, rfl⟩
  · rename_i obj found heq
    cases found with
    | false => exact ⟨_, _, rfl⟩
    | true =>
      obtain ⟨d, rfl⟩ := hmirror obj heq
      exact ⟨_, _, rfl⟩

theorem processNextItem_true_iff {Q : Type} (c : Controller Q) (q : Q) :
    (processNextItem c q).1 = Outcome.ret true ↔
      ∃ s q1 err evs, c.queue.Get q = some (Any.str s, false, q1) ∧
        syncDeployment c s = (Outcome.ret err, evs) := by
  constructor
  · intro h
    cases hget : c.queue.Get q with
    | none => simp [processNextItem, hget] at h
    | some r =>
      obtain ⟨key, quit, q1⟩ := r
      cases quit with
      | true => simp [processNextItem, hget] at h
      | false =>
        cases key with
        | str s =>
          rcases hs : syncDeployment c s with ⟨o, ev1⟩
          cases o with
          | ret err => exact ⟨s, q1, err, ev1, rfl, hs⟩
          | panic p => simp [processNextItem, hget, hs] at h
          | blocked => simp [processNextItem, hget, hs] at h
        | nil => simp [processNextItem, hget] at h
        | deployment p => simp [processNextItem, hget] at h
        | error e => simp [processNextItem, hget] at h
        | other t => simp [processNextItem, hget] at h
  · rintro ⟨s, q1, err, evs, hget, hsync⟩
    rw [processNextItem_delivered c q q1 s err evs hget hsync]

/-- C8: `processNextItem` returns false if and only if `queue.Get` reports that the queue
is shutting down; for every delivered key it returns true whether `syncDeployment`
returned nil or an error, and `runWorker` then goes on with the next iteration; when
`runWorker` returns, the last thing it did was a `Get` that reported shutdown. -/
theorem processNextItem_result {Q : Type} (c : Controller Q) (q : Q) :
    ((processNextItem c q).1 = Outcome.ret false ↔
      ∃ key q1, c.queue.Get q = some (key, true, q1)) ∧
    (∀ s q1 err evs, c.queue.Get q = some (Any.str s, false, q1) →
      syncDeployment c s = (Outcome.ret err, evs) →
      (processNextItem c q).1 = Outcome.ret true ∧
      ∀ n, runWorker c (n + 1) q =
        (runWorker c n (processNextItem c q).2.1).map
          (fun r => (r.1, r.2.1, (processNextItem c q).2.2 ++ r.2.2))) ∧
    (∀ n q2 evs, runWorker c n q = some (Outcome.ret (), q2, evs) →
      ∃ key, evs.getLast? = some (Event.queueGet key true)) := by
  refine ⟨processNextItem_false_iff c q, ?_, fun n q2 evs h => runWorker_exit c n q q2 evs h⟩
  intro s q1 err evs hget hsync
  have hp := processNextItem_delivered c q q1 s err evs hget hsync
  refine ⟨by rw [hp], ?_⟩
  intro n
  rw [hp]
  simp only [runWorker, hp]
  cases runWorker c n (c.queue.Done (handleErr c err (Any.str s) q1).1 (Any.str s)) with
  | none => rfl
  | some r => rfl

/-- C9: for every (string) key that `queue.Get` delivers with `quit = false` and for which
`syncDeployment` returns, `processNextItem` calls `syncDeployment(key)`, then `handleErr`
with its result, then `queue.Done(key)`, each exactly once and in that order; when `Get`
reports shutdown it calls none of them. -/
theorem processNextItem_calls {Q : Type} (c : Controller Q) (q : Q) :
    (∀ s q1 err evs, c.queue.Get q = some (Any.str s, false, q1) →
      syncDeployment c s = (Outcome.ret err, evs) →
      processNextItem c q =
        (Outcome.ret true, c.queue.Done (handleErr c err (Any.str s) q1).1 (Any.str s),
          [Event.queueGet (Any.str s) false] ++ (syncDeployment c s).2 ++
            (handleErr c err (Any.str s) q1).2 ++ [Event.queueDone (Any.str s)]) ∧
      (processNextItem c q).2.2.filter Event.isWorkerCall =
        [Event.enterSyncDeployment s, Event.enterHandleErr err (Any.str s),
         Event.queueDone (Any.str s)]) ∧
    (∀ key q1, c.queue.Get q = some (key, true, q1) →
      processNextItem c q = (Outcome.ret false, q1, [Event.queueGet key true]) ∧
      (processNextItem c q).2.2.filter Event.isWorkerCall = []) := by
  constructor
  · intro s q1 err evs hget hsync
    have hp := processNextItem_delivered c q q1 s err evs hget hsync
    have hev : (syncDeployment c s).2 = evs := by rw [hsync]
    refine ⟨by rw [hp, hev], ?_⟩
    rw [hp]
    have h1 := syncDeployment_events_no_call c s
    rw [hev] at h1
    have h2 := handleErr_events_no_call c err (Any.str s) q1
    simp [List.filter_append, h1, h2, Event.isWorkerCall]
  · intro key q1 hget
    have hp := processNextItem_shutdown c q q1 key hget
    refine ⟨hp, ?_⟩
    rw [hp]
    rfl


/-! ## Only strings enter the queue -/

theorem WorkQueue.queueLaws : QueueLaws WorkQueue.iface := by
  constructor
  · intro x
    simp [WorkQueue.iface, WorkQueue.keys, WorkQueue.empty]
  · intro q k x
    simp only [WorkQueue.iface, WorkQueue.Add, WorkQueue.keys]
    split_ifs <;> simp <;> tauto
  · intro q k x
    simp only [WorkQueue.iface, WorkQueue.AddRateLimited, WorkQueue.keys]
    split_ifs <;> simp <;> tauto
  · intro q k x
    simp [WorkQueue.iface, WorkQueue.Forget, WorkQueue.keys]
  · intro q k x
    simp only [WorkQueue.iface, WorkQueue.Done, WorkQueue.keys]
    split_ifs with h <;> simp
    · rintro (h1 | h1 | h1 | h1 | h1)
      · exact Or.inl h1
      · subst h1
        exact Or.inr (Or.inl h)
      · exact Or.inr (Or.inl h1)
      · exact Or.inr (Or.inr (Or.inl h1.1))
      · exact Or.inr (Or.inr (Or.inr h1))
    · tauto
  · intro q x
    simp [WorkQueue.iface, WorkQueue.ShutDown, WorkQueue.keys]
  · intro q x
    simp only [WorkQueue.iface, WorkQueue.tick]
    cases hw : q.waiting with
    | nil => simp
    | cons item rest =>
      simp only [WorkQueue.Add, WorkQueue.keys]
      split_ifs <;> simp [hw] <;> tauto
  · intro q k q1
    simp only [WorkQueue.iface, WorkQueue.Get, WorkQueue.keys]
    cases hq : q.queue with
    | nil => split_ifs <;> simp
    | cons item rest =>
      simp only [Option.some.injEq, Prod.mk.injEq]
      rintro ⟨h1, -, -⟩
      simp [h1]
  · intro q k b q1 x
    simp only [WorkQueue.iface, WorkQueue.Get, WorkQueue.keys]
    cases hq : q.queue with
    | nil =>
      split_ifs
      · simp only [Option.some.injEq, Prod.mk.injEq]
        rintro ⟨-, -, h3⟩
        subst h3
        simp [hq]
      · simp
    | cons item rest =>
      simp only [Option.some.injEq, Prod.mk.injEq]
      rintro ⟨-, -, h3⟩
      subst h3
      simp
      tauto

theorem enqueueDeployment_keys {Q : Type} (c : Controller Q) (laws : QueueLaws c.queue)
    (obj : Any) (q : Q) (h : AllStrings (c.queue.keys q)) :
    AllStrings (c.queue.keys (enqueueDeployment c obj q).2.1) := by
  unfold enqueueDeployment
  split
  · exact h
  · intro k hk
    rcases laws.keys_Add _ _ _ hk with h1 | h1
    · exact ⟨_, h1⟩
    · exact h k h1
  · exact h
  · exact h

theorem handleErr_keys {Q : Type} (c : Controller Q) (laws : QueueLaws c.queue)
    (err : Option GoError) (s : String) (q : Q) (h : AllStrings (c.queue.keys q)) :
    AllStrings (c.queue.keys (handleErr c err (Any.str s) q).1) := by
  unfold handleErr
  split
  · intro k hk
    exact h k (laws.keys_Forget _ _ _ hk)
  · split
    · intro k hk
      rcases laws.keys_AddRateLimited _ _ _ hk with h1 | h1
      · exact ⟨_, h1⟩
      · exact h k h1
    · intro k hk
      exact h k (laws.keys_Forget _ _ _ hk)

theorem processNextItem_keys {Q : Type} (c : Controller Q) (laws : QueueLaws c.queue)
    (q : Q) (h : AllStrings (c.queue.keys q)) :
    AllStrings (c.queue.keys (processNextItem c q).2.1) := by
  cases hget : c.queue.Get q with
  | none => simpa [processNextItem, hget] using h
  | some r =>
    obtain ⟨key, quit, q1⟩ := r
    have h1 : AllStrings (c.queue.keys q1) :=
      fun k hk => h k (laws.keys_Get q key quit q1 k hget hk)
    have hd : AllStrings (c.queue.keys (c.queue.Done q1 key)) :=
      fun k hk => h1 k (laws.keys_Done _ _ _ hk)
    cases quit with
    | true => simpa [processNextItem, hget] using h1
    | false =>
      cases key with
      | str s =>
        rcases hs : syncDeployment c s with ⟨o, ev1⟩
        cases o with
        | ret err =>
          have h2 := handleErr_keys c laws err s q1 h1
          have h3 : AllStrings
              (c.queue.keys (c.queue.Done (handleErr c err (Any.str s) q1).1 (Any.str s))) :=
            fun k hk => h2 k (laws.keys_Done _ _ _ hk)
          simpa [processNextItem, hget, hs] using h3
        | panic p => simpa [processNextItem, hget, hs] using hd
        | blocked => simpa [processNextItem, hget, hs] using h1
      | nil => simpa [processNextItem, hget] using hd
      | deployment p => simpa [processNextItem, hget] using hd
      | error e => simpa [processNextItem, hget] using hd
      | other t => simpa [processNextItem, hget] using hd

theorem reachable_keys {Q : Type} (c : Controller Q) (laws : QueueLaws c.queue) (q : Q)
    (hr : Reachable c q) : AllStrings (c.queue.keys q) := by
  induction hr with
  | init =>
    intro k hk
    exact absurd hk (laws.keys_new k)
  | notify q n _ ih =>
    cases n with
    | Added obj => exact enqueueDeployment_keys c laws obj q ih
    | Modified old new => exact enqueueDeployment_keys c laws new q ih
    | Deleted obj => exact ih
  | work q ix _ ih =>
    exact processNextItem_keys { c with GetByKey := ix } laws q ih
  | tick q _ ih => exact fun k hk => ih k (laws.keys_tick _ _ hk)
  | shutDown q _ ih => exact fun k hk => ih k (laws.keys_ShutDown _ _ hk)
  | get q q1 key quit _ hget ih => exact fun k hk => ih k (laws.keys_Get q key quit q1 k hget hk)
  | handle q err s _ ih => exact handleErr_keys c laws err s q ih
  | done q key _ ih => exact fun k hk => ih k (laws.keys_Done _ _ _ hk)

theorem processNextItem_no_keyNotString {Q : Type} (c : Controller Q) (q : Q)
    (h : ∀ key q1, c.queue.Get q = some (key, false, q1) → ∃ s, key = Any.str s) :
    (processNextItem c q).1 ≠ Outcome.panic Panic.keyNotString := by
  cases hget : c.queue.Get q with
  | none => simp [processNextItem, hget]
  | some r =>
    obtain ⟨key, quit, q1⟩ := r
    cases quit with
    | true => simp [processNextItem, hget]
    | false =>
      obtain ⟨s, rfl⟩ := h key q1 hget
      rcases hs : syncDeployment c s with ⟨o, ev1⟩
      cases o with
      | ret err => simp [processNextItem, hget, hs]
      | panic p =>
        have hp : p ≠ Panic.keyNotString := by
          intro hp
          subst hp
          have : (syncDeployment c s).1 = Outcome.panic Panic.keyNotString := by rw [hs]
          unfold syncDeployment at this
          split at this
          · simp at this
          · split at this
            · simp at this
            · split at this <;> simp at this
        simpa [processNextItem, hget, hs] using hp
      | blocked => simp [processNextItem, hget, hs]

theorem syncDeployment_no_add {Q : Type} (c : Controller Q) (s : String) (k : Any) :
    Event.queueAdd k ∉ (syncDeployment c s).2 ∧
    Event.queueAddRateLimited k ∉ (syncDeployment c s).2 := by
  unfold syncDeployment
  split
  · simp
  · split
    · simp
    · split <;> simp

theorem handleErr_adds_key {Q : Type} (c : Controller Q) (err : Option GoError)
    (key : Any) (q : Q) (k : Any)
    (h : Event.queueAdd k ∈ (handleErr c err key q).2 ∨
      Event.queueAddRateLimited k ∈ (handleErr c err key q).2) : k = key := by
  revert h
  unfold handleErr
  split
  · simp
  · split <;> simp

theorem processNextItem_adds_delivered {Q : Type} (c : Controller Q) (q : Q) (k : Any)
    (h : Event.queueAdd k ∈ (processNextItem c q).2.2 ∨
      Event.queueAddRateLimited k ∈ (processNextItem c q).2.2) :
    ∃ s q1, k = Any.str s ∧ c.queue.Get q = some (k, false, q1) := by
  cases hget : c.queue.Get q with
  | none => simp [processNextItem, hget] at h
  | some r =>
    obtain ⟨key, quit, q1⟩ := r
    cases quit with
    | true => simp [processNextItem, hget] at h
    | false =>
      cases key with
      | str s =>
        have hno := syncDeployment_no_add c s k
        rcases hs : syncDeployment c s with ⟨o, ev1⟩
        rw [hs] at hno
        cases o with
        | ret err =>
          have hk : k = Any.str s := by
            apply handleErr_adds_key c err (Any.str s) q1 k
            simp only [processNextItem, hget, hs] at h
            simpa [hno.1, hno.2] using h
          exact ⟨s, q1, hk, by rw [hk]⟩
        | panic p =>
          simp only [processNextItem, hget, hs] at h
          simp [hno.1, hno.2] at h
        | blocked =>
          simp only [processNextItem, hget, hs] at h
          simp [hno.1, hno.2] at h
      | nil => simp [processNextItem, hget] at h
      | deployment p => simp [processNextItem, hget] at h
      | error e => simp [processNextItem, hget] at h
      | other t => simp [processNextItem, hget] at h

/-- C10: every key the controller puts into its queue is a string: `enqueueDeployment`
adds only the string returned by key derivation, and `handleErr` re-adds only the key it
was given, which in `processNextItem` is a string key that `Get` delivered.  Hence, on a queue that holds only what was given to it, in every state the
controller can reach every held item is a string, `Get` delivers only strings, and the
assertion `key.(string)` in `processNextItem` does not fail. -/
theorem queue_holds_only_strings {Q : Type} (c : Controller Q) (laws : QueueLaws c.queue)
    (q : Q) (hr : Reachable c q) :
    (∀ obj q0 k, (Event.queueAdd k ∈ (enqueueDeployment c obj q0).2.2 ∨
        Event.queueAddRateLimited k ∈ (enqueueDeployment c obj q0).2.2) →
      ∃ key, c.MetaNamespaceKeyFunc obj = Outcome.ret (key, none) ∧ k = Any.str key) ∧
    (∀ err key q0 k, (Event.queueAdd k ∈ (handleErr c err key q0).2 ∨
        Event.queueAddRateLimited k ∈ (handleErr c err key q0).2) → k = key) ∧
    (∀ q0 k, (Event.queueAdd k ∈ (processNextItem c q0).2.2 ∨
        Event.queueAddRateLimited k ∈ (processNextItem c q0).2.2) →
      ∃ s q1, k = Any.str s ∧ c.queue.Get q0 = some (k, false, q1)) ∧
    AllStrings (c.queue.keys q) ∧
    (∀ key q1, c.queue.Get q = some (key, false, q1) → ∃ s, key = Any.str s) ∧
    (∀ ix, (processNextItem { c with GetByKey := ix } q).1 ≠
      Outcome.panic Panic.keyNotString) := by
  have hall := reachable_keys c laws q hr
  have hget : ∀ key q1, c.queue.Get q = some (key, false, q1) → ∃ s, key = Any.str s :=
    fun key q1 h => hall key (laws.Get_mem q key q1 h)
  refine ⟨?_, fun err key q0 k h => handleErr_adds_key c err key q0 k h,
    fun q0 k h => processNextItem_adds_delivered c q0 k h, hall, hget, ?_⟩
  · intro obj q0 k
    cases h : c.MetaNamespaceKeyFunc obj with
    | ret r =>
      obtain ⟨key, err⟩ := r
      cases err <;> simp [enqueueDeployment, h]
    | panic p => simp [enqueueDeployment, h]
    | blocked => simp [enqueueDeployment, h]
  · intro ix
    exact processNextItem_no_keyNotString { c with GetByKey := ix } q hget


/-! ## The statements at concrete inputs -/

/-- With no requeue so far `handleErr` requeues `"ns/a"` exactly once; with five requeues
behind it, it forgets the key. -/
theorem handleErr_failure_witness :
    (refController []).queue.NumRequeues WorkQueue.empty keyA < 5 ∧
    (handleErr (refController []) (some boom) keyA WorkQueue.empty).2.count
      (Event.queueAddRateLimited keyA) = 1 ∧
    5 ≤ (refController []).queue.NumRequeues retriedA keyA ∧
    (handleErr (refController []) (some boom) keyA retriedA).1 =
      (refController []).queue.Forget retriedA keyA :=
  ⟨by decide,
   ((handleErr_failure (refController []) boom keyA WorkQueue.empty).1 (by decide)).2.2.1,
   by decide,
   ((handleErr_failure (refController []) boom keyA retriedA).2 (by decide)).1⟩

/-- After five requeues of `"ns/a"`, a successful reconcile brings its retry counter from
5 back to 0. -/
theorem handleErr_success_witness :
    (refController []).queue.NumRequeues retriedA keyA = 5 ∧
    (refController []).queue.NumRequeues
      (handleErr (refController []) none keyA retriedA).1 keyA = 0 :=
  ⟨by decide,
   (handleErr_success (refController []) keyA retriedA
      WorkQueue.retryLaws.numRequeues_Forget).2.2.2⟩

/-- C2 as stated does not hold on the reference queue: starting clean, the 5th
consecutive failure of `"ns/a"` is still requeued, and `NumRequeues` is 5, not 0, right
after it. -/
theorem fifth_failure_requeues :
    RetryLaws (refController []).queue ∧
    (refController []).queue.NumRequeues WorkQueue.empty keyA = 0 ∧
    ¬ (Event.queueAddRateLimited keyA ∉
          ((handleErrs (refController []) keyA (List.replicate 5 boom)
            WorkQueue.empty).2.getLastD []) ∧
       (refController []).queue.NumRequeues
          (handleErrs (refController []) keyA (List.replicate 5 boom)
            WorkQueue.empty).1 keyA = 0) :=
  ⟨WorkQueue.retryLaws, by decide, by decide⟩

/-- Six consecutive failures of `"ns/a"` on the reference queue: five requeues, then the
drop, after which the retry counter is 0. -/
theorem sixth_failure_drops_witness :
    (refController []).queue.NumRequeues WorkQueue.empty keyA = 0 ∧
    (List.replicate 5 boom).length = 5 ∧
    (handleErrs (refController []) keyA (List.replicate 5 boom ++ [boom])
      WorkQueue.empty).2 =
      (List.replicate 5 boom).map (requeueEvents keyA) ++ [dropEvents keyA boom] ∧
    (refController []).queue.NumRequeues
      (handleErrs (refController []) keyA (List.replicate 5 boom ++ [boom])
        WorkQueue.empty).1 keyA = 0 :=
  ⟨by decide, by decide,
   (sixth_failure_drops (refController []) WorkQueue.retryLaws keyA WorkQueue.empty
      (List.replicate 5 boom) boom (by decide) (by decide)).2.2.1,
   (sixth_failure_drops (refController []) WorkQueue.retryLaws keyA WorkQueue.empty
      (List.replicate 5 boom) boom (by decide) (by decide)).2.2.2.2.2⟩

/-- C4 as stated does not hold for a Deleted event: the key of `ns/a` can be derived,
yet the registered handlers do nothing and `"ns/a"` is not added to the queue. -/
theorem deleted_not_enqueued :
    (refController []).MetaNamespaceKeyFunc (Any.deployment (some deploymentA)) =
      Outcome.ret ("ns/a", none) ∧
    (NewController (refController [])).2.deliver
      (Notification.Deleted (Any.deployment (some deploymentA))) WorkQueue.empty =
      (Outcome.ret (), WorkQueue.empty, []) ∧
    Event.queueAdd keyA ∉
      ((NewController (refController [])).2.deliver
        (Notification.Deleted (Any.deployment (some deploymentA))) WorkQueue.empty).2.2 ∧
    keyA ∉ WorkQueue.keys
      ((NewController (refController [])).2.deliver
        (Notification.Deleted (Any.deployment (some deploymentA))) WorkQueue.empty).2.1 :=
  ⟨by decide, by decide, by decide, by decide⟩

/-- Added and Modified events for `ns/a` put `"ns/a"` into the reference queue; a Deleted
event leaves it as it was. -/
theorem handlers_enqueue_witness :
    (refController []).MetaNamespaceKeyFunc (Any.deployment (some deploymentA)) =
      Outcome.ret ("ns/a", none) ∧
    (NewController (refController [])).2.deliver
      (Notification.Added (Any.deployment (some deploymentA))) WorkQueue.empty =
      (Outcome.ret (), WorkQueue.Add WorkQueue.empty (Any.str "ns/a"),
        [Event.enterEnqueueDeployment (Any.deployment (some deploymentA)),
         Event.metaNamespaceKeyFunc (Any.deployment (some deploymentA)),
         Event.queueAdd (Any.str "ns/a")]) ∧
    keyA ∈ WorkQueue.keys (WorkQueue.Add WorkQueue.empty (Any.str "ns/a")) :=
  ⟨by decide,
   (handlers_enqueue (refController []) (Any.deployment (some deploymentA)) Any.nil "ns/a"
      WorkQueue.empty (by decide)).1,
   by decide⟩

/-- C5 as stated does not hold for every object: on a nil `*appsv1.Deployment` key
derivation panics, and `enqueueDeployment`, which has no `recover`, panics with it instead
of returning. -/
theorem enqueueDeployment_nil_pointer_panics :
    (refController []).MetaNamespaceKeyFunc (Any.deployment none) =
      Outcome.panic Panic.nilDeployment ∧
    enqueueDeployment (refController []) (Any.deployment none) WorkQueue.empty =
      (Outcome.panic Panic.nilDeployment, WorkQueue.empty,
        [Event.enterEnqueueDeployment (Any.deployment none),
         Event.metaNamespaceKeyFunc (Any.deployment none)]) ∧
    ¬ (enqueueDeployment (refController []) (Any.deployment none) WorkQueue.empty).1 =
      Outcome.ret () :=
  ⟨by decide, by decide, by decide⟩

/-- An object without identity fields is dropped and `enqueueDeployment` returns; the
deployment `ns/a` is added once; on a nil pointer the panic of key derivation is passed
on. -/
theorem enqueueDeployment_spec_witness :
    (refController []).MetaNamespaceKeyFunc (Any.other 7) =
      Outcome.ret ("", some { msg := "object has no meta" }) ∧
    enqueueDeployment (refController []) (Any.other 7) pendingA =
      (Outcome.ret (), pendingA,
        [Event.enterEnqueueDeployment (Any.other 7), Event.metaNamespaceKeyFunc (Any.other 7),
         Event.klogErrorf "Failed to get key for object: %v"
           [Any.error { msg := "object has no meta" }]]) ∧
    (refController []).MetaNamespaceKeyFunc (Any.deployment (some deploymentA)) =
      Outcome.ret ("ns/a", none) ∧
    (enqueueDeployment (refController []) (Any.deployment (some deploymentA))
      WorkQueue.empty).2.2.count (Event.queueAdd (Any.str "ns/a")) = 1 ∧
    (enqueueDeployment (refController []) (Any.deployment (some deploymentA))
      WorkQueue.empty).1 = Outcome.ret () ∧
    (refController []).MetaNamespaceKeyFunc (Any.deployment none) =
      Outcome.panic Panic.nilDeployment ∧
    enqueueDeployment (refController []) (Any.deployment none) pendingA =
      (Outcome.panic Panic.nilDeployment, pendingA,
        [Event.enterEnqueueDeployment (Any.deployment none),
         Event.metaNamespaceKeyFunc (Any.deployment none)]) :=
  ⟨by decide,
   ((enqueueDeployment_spec (refController []) (Any.other 7) pendingA).1 ""
      { msg := "object has no meta" } (by decide)).1,
   by decide,
   ((enqueueDeployment_spec (refController []) (Any.deployment (some deploymentA))
      WorkQueue.empty).2.1 "ns/a" (by decide)).2.1,
   (enqueueDeployment_spec (refController []) (Any.deployment (some deploymentA))
      WorkQueue.empty).2.2.1 ("ns/a", none) (by decide),
   by decide,
   (enqueueDeployment_spec (refController []) (Any.deployment none)
      pendingA).2.2.2.2 Panic.nilDeployment (by decide)⟩

/-- An update of `ns/a`, from `ns/b` or from itself, puts `"ns/a"` and nothing else into
the reference queue. -/
theorem updateFunc_enqueues_new_witness :
    (refController []).MetaNamespaceKeyFunc (Any.deployment (some deploymentA)) =
      Outcome.ret ("ns/a", none) ∧
    (NewController (refController [])).2.deliver
      (Notification.Modified (Any.deployment (some deploymentB))
        (Any.deployment (some deploymentA))) WorkQueue.empty =
      (Outcome.ret (), WorkQueue.Add WorkQueue.empty (Any.str "ns/a"),
        [Event.enterEnqueueDeployment (Any.deployment (some deploymentA)),
         Event.metaNamespaceKeyFunc (Any.deployment (some deploymentA)),
         Event.queueAdd (Any.str "ns/a")]) ∧
    (NewController (refController [])).2.deliver
      (Notification.Modified (Any.deployment (some deploymentA))
        (Any.deployment (some deploymentA))) WorkQueue.empty =
      (Outcome.ret (), WorkQueue.Add WorkQueue.empty (Any.str "ns/a"),
        [Event.enterEnqueueDeployment (Any.deployment (some deploymentA)),
         Event.metaNamespaceKeyFunc (Any.deployment (some deploymentA)),
         Event.queueAdd (Any.str "ns/a")]) ∧
    WorkQueue.keys (WorkQueue.Add WorkQueue.empty (Any.str "ns/a")) =
      [Any.str "ns/a", Any.str "ns/a"] :=
  ⟨by decide,
   ((updateFunc_enqueues_new (refController []) (Any.deployment (some deploymentB))
      (Any.deployment (some deploymentA)) WorkQueue.empty).1 "ns/a" (by decide)).1,
   ((updateFunc_enqueues_new (refController []) (Any.deployment (some deploymentB))
      (Any.deployment (some deploymentA)) WorkQueue.empty).1 "ns/a" (by decide)).2.1,
   by decide⟩

/-- The key `"ns/a"` is absent from an empty mirror: the worker forgets it and does not
requeue it. -/
theorem syncDeployment_absent_witness :
    (refController []).GetByKey "ns/a" = (Any.nil, false, none) ∧
    (refController []).queue.Get pendingA = some (Any.str "ns/a", false, inflightA) ∧
    (processNextItem (refController []) pendingA).1 = Outcome.ret true ∧
    (processNextItem (refController []) pendingA).2.2 =
      [Event.queueGet (Any.str "ns/a") false, Event.enterSyncDeployment "ns/a",
       Event.getByKey "ns/a", Event.enterHandleErr none (Any.str "ns/a"),
       Event.queueForget (Any.str "ns/a"), Event.queueDone (Any.str "ns/a")] :=
  ⟨by decide, by decide, by decide,
   congrArg (fun r => r.2.2)
     ((syncDeployment_absent (refController []) "ns/a" Any.nil inflightA
        (by decide)).2.2.2.2 pendingA (by decide))⟩

/-- A failing reconcile of `"ns/a"`: `processNextItem` returns true and the loop goes on;
on a shut-down empty queue `runWorker` returns, its last action a `Get` reporting
shutdown. -/
theorem processNextItem_result_witness :
    failingController.queue.Get pendingA =
      some (Any.str "ns/a", false, inflightA) ∧
    syncDeployment failingController "ns/a" =
      (Outcome.ret (some { msg := "lookup failed" }),
        [Event.enterSyncDeployment "ns/a", Event.getByKey "ns/a"]) ∧
    (processNextItem failingController pendingA).1 = Outcome.ret true ∧
    runWorker failingController 1 (WorkQueue.ShutDown WorkQueue.empty) =
      some (Outcome.ret (), WorkQueue.ShutDown WorkQueue.empty,
        [Event.queueGet Any.nil true]) ∧
    ∃ key, [Event.queueGet Any.nil true].getLast? = some (Event.queueGet key true) :=
  ⟨by decide, by decide,
   ((processNextItem_result failingController pendingA).2.1 "ns/a"
      inflightA (some { msg := "lookup failed" })
      [Event.enterSyncDeployment "ns/a", Event.getByKey "ns/a"]
      (by decide) (by decide)).1,
   by decide,
   (processNextItem_result failingController (WorkQueue.ShutDown WorkQueue.empty)).2.2 1
      (WorkQueue.ShutDown WorkQueue.empty) [Event.queueGet Any.nil true] (by decide)⟩

/-- A failing reconcile of `"ns/a"` calls `syncDeployment`, `handleErr` and `Done` once
each and in that order; on a shut-down empty queue none of them is called. -/
theorem processNextItem_calls_witness :
    failingController.queue.Get pendingA =
      some (Any.str "ns/a", false, inflightA) ∧
    (processNextItem failingController pendingA).2.2.filter Event.isWorkerCall =
      [Event.enterSyncDeployment "ns/a",
       Event.enterHandleErr (some { msg := "lookup failed" }) (Any.str "ns/a"),
       Event.queueDone (Any.str "ns/a")] ∧
    failingController.queue.Get (WorkQueue.ShutDown WorkQueue.empty) =
      some (Any.nil, true, WorkQueue.ShutDown WorkQueue.empty) ∧
    (processNextItem failingController
      (WorkQueue.ShutDown WorkQueue.empty)).2.2.filter Event.isWorkerCall = [] :=
  ⟨by decide,
   ((processNextItem_calls failingController pendingA).1 "ns/a"
      inflightA (some { msg := "lookup failed" })
      [Event.enterSyncDeployment "ns/a", Event.getByKey "ns/a"]
      (by decide) (by decide)).2,
   by decide,
   ((processNextItem_calls failingController (WorkQueue.ShutDown WorkQueue.empty)).2 Any.nil
      (WorkQueue.ShutDown WorkQueue.empty) (by decide)).2⟩

/-- The queue state after an Added notification for `ns/a` is reachable, it holds only
strings, and `processNextItem` does not fail on `key.(string)` there. -/
theorem queue_holds_only_strings_witness :
    Reachable (refController []) pendingA ∧
    AllStrings ((refController []).queue.keys pendingA) ∧
    (processNextItem (refController []) pendingA).1 ≠ Outcome.panic Panic.keyNotString :=
  ⟨Reachable.notify _ _ Reachable.init,
   (queue_holds_only_strings (refController []) WorkQueue.queueLaws pendingA
      (Reachable.notify _ _ Reachable.init)).2.2.2.1,
   (queue_holds_only_strings (refController []) WorkQueue.queueLaws pendingA
      (Reachable.notify _ _ Reachable.init)).2.2.2.2.2 (refGetByKey [])⟩

end DeploymentController
